import Mathlib

/-!
Verification of the Adafruit_CircuitPython_Pypixelbuf repository.

Two near-duplicate implementations are embedded:
* namespace `APB` models `adafruit_pypixelbuf.py` (class `PixelBuf`);
* namespace `PPB` models `pypixelbuf.py` (class `PixelBuf` plus the
  `ByteOrder` preset classes).

Conventions of the shallow embedding:
* Python `bytearray`s are `List Nat`; every store goes through `bset`,
  which mirrors CPython's checks (IndexError on an out-of-range index,
  ValueError unless `0 <= v < 256`); every read goes through `bget`.
* Python floats are modelled as exact unreduced fractions `PyFloat`
  (an integer numerator over a natural denominator, no gcd
  normalisation), so that all state arithmetic is kernel-reducible.
  `PyFloat.toRat` gives the represented rational for use in
  specification-level statements.  A `PyFloat` with denominator 1 also
  stands for the corresponding Python `int` where the source stores a
  user-supplied fourth channel into a bytearray.
* Python exceptions are the error side of `Except PyErr`.
* `int(x)` on a float is `PyFloat.trunc` (truncation toward zero);
  `math.ceil` of an exact quotient of ints is `pyCeilDiv`.
* The abstract transmit hook (`PixelBuf._transmit`, supplied by
  subclasses; the `write_function` in `pypixelbuf.py`) is modelled as a
  ghost log: `APB` records the transmitted buffers, `PPB` counts calls.
-/

inductive PyErr where
  | valueError
  | typeError
  | indexError
  | attributeError
  deriving DecidableEq, Repr

abbrev Bytes := List Nat

/-- Store `v` into a bytearray: IndexError when out of range, ValueError
unless `0 <= v < 256` (CPython bytearray item assignment). -/
def bset (l : Bytes) (i : Nat) (v : Int) : Except PyErr Bytes :=
  if i < l.length then
    if 0 ≤ v ∧ v < 256 then .ok (l.set i v.toNat) else .error .valueError
  else .error .indexError

/-- Read a bytearray item; IndexError when out of range. -/
def bget (l : Bytes) (i : Nat) : Except PyErr Nat :=
  if h : i < l.length then .ok (l.get ⟨i, h⟩) else .error .indexError

/-- Exact value of a Python float: numerator over denominator, kept
unreduced so that all operations compute by kernel reduction. -/
structure PyFloat where
  num : Int
  den : Nat
  deriving DecidableEq, Repr

namespace PyFloat

/-- Rational value represented by a `PyFloat`. -/
def toRat (x : PyFloat) : ℚ := (x.num : ℚ) / (x.den : ℚ)

/-- Embed a Python int literal as a float value. -/
def fromNat (n : Nat) : PyFloat := ⟨n, 1⟩

/-- Strict comparison `x < y` (exact; denominators are positive in every
value the code builds). -/
def blt (x y : PyFloat) : Bool := x.num * (y.den : Int) < y.num * (x.den : Int)

/-- Python `n * x` for an int `n` and float `x` (also used for `x * n`). -/
def natMul (n : Nat) (x : PyFloat) : PyFloat := ⟨(n : Int) * x.num, x.den⟩

/-- Python `n - x` for an int `n` and float `x`. -/
def natSub (n : Nat) (x : PyFloat) : PyFloat := ⟨(n : Int) * (x.den : Int) - x.num, x.den⟩

/-- Python `x * y` on floats. -/
def mul (x y : PyFloat) : PyFloat := ⟨x.num * y.num, x.den * y.den⟩

/-- Python `int(x)`: truncation toward zero. -/
def trunc (x : PyFloat) : Int := Int.tdiv x.num x.den

/-- Python `min(a, b)`: returns `b` exactly when `b < a`. -/
def pymin (a b : PyFloat) : PyFloat := if blt b a then b else a

/-- Python `max(a, b)`: returns `b` exactly when `a < b`. -/
def pymax (a b : PyFloat) : PyFloat := if blt a b then b else a

end PyFloat

/-- Store a user-supplied fourth-channel value into a bytearray: a float
(denominator other than one) raises TypeError in CPython; an integral
value is stored like an int. -/
def bsetFloat (l : Bytes) (i : Nat) (w : PyFloat) : Except PyErr Bytes :=
  if w.den = 1 then bset l i w.num else .error .typeError

/-- Exact `ceil(a / b)` on integers (`math.ceil` of the true division the
sources perform on slice bounds). -/
def pyCeilDiv (a b : Int) : Int :=
  if 0 < b then -(Int.fdiv (-a) b) else -(Int.fdiv a (-b))

/-- Number of elements of Python `range(s, e, t)`:
`max 0 (ceil((e - s) / t))`. -/
def pyRangeLen (s e t : Int) : Nat := (pyCeilDiv (e - s) t).toNat

/-- Python `range(s, e, t)` as a list. -/
def pyRange (s e t : Int) : List Int :=
  (List.range (pyRangeLen s e t)).map (fun k => s + t * k)

/-- Python `slice(start, stop, step).indices(n)` (CPython
`PySlice_Unpack` + `PySlice_AdjustIndices`): step defaults to 1 and must
not be 0; bounds are wrapped once when negative and clamped to
`[0, n]` for a positive step and to `[-1, n-1]` for a negative one. -/
def pySliceIndices (start stop step : Option Int) (n : Nat) :
    Except PyErr (Int × Int × Int) :=
  if step = some 0 then .error .valueError
  else
    let t := step.getD 1
    let lower : Int := if 0 < t then 0 else -1
    let upper : Int := if 0 < t then (n : Int) else (n : Int) - 1
    let s := match start with
      | none => if 0 < t then lower else upper
      | some v => if v < 0 then max (v + n) lower else min v upper
    let e := match stop with
      | none => if 0 < t then upper else lower
      | some v => if v < 0 then max (v + n) lower else min v upper
    .ok (s, e, t)

/-- Python-style index wrap: a negative index gets the length added
once (`if index < 0: index += len(self)`). -/
def pyWrapIndex (i : Int) (n : Nat) : Int := if i < 0 then i + n else i

/-- Values accepted by `PixelBuf.__setitem__` for one pixel: a packed
int, a 3-sequence, or a 4-sequence whose fourth entry may be a float. -/
inductive PixelValue where
  | int (v : Nat)
  | t3 (r g b : Nat)
  | t4 (r g b : Nat) (w : PyFloat)
  deriving DecidableEq, Repr

/-- Result entries of `pypixelbuf`'s `_getitem` (ints for colour
channels, a float for the decoded DotStar duty cycle). -/
inductive PyVal where
  | int (v : Nat)
  | float (f : PyFloat)
  deriving DecidableEq, Repr

/-- The local variables `r, g, b, w, has_w` of `_set_item` after the
value-decomposition branch ladder. -/
structure ColorParts where
  r : Nat
  g : Nat
  b : Nat
  w : PyFloat
  hasW : Bool
  deriving DecidableEq, Repr

/-- DotStar start-frame byte written by `_set_item` for an explicit
fourth value `w`:
`(32 - int(32 - w * 31) & 0b00011111) | 0b11100000` — by Python operator
precedence `(32 - int(32 - w*31)) & 31 | 224`. -/
def lumByte (w : PyFloat) : Int :=
  Int.lor (Int.land ((32 : Int) - PyFloat.trunc (PyFloat.natSub 32 (PyFloat.natMul 31 w))) 31) 224

namespace APB

/-- Characters allowed in an `adafruit_pypixelbuf` byteorder string. -/
def rgbwpChars : List Char := ['R', 'G', 'B', 'W', 'P']

/-- Python `byteorder.strip("RGBWP")`: removes the characters of the set
from both ends only. -/
def pyStrip (s : List Char) : List Char :=
  ((s.dropWhile (fun c => decide (c ∈ rgbwpChars))).reverse.dropWhile
    (fun c => decide (c ∈ rgbwpChars))).reverse

/-- `PixelBuf.parse_byteorder` (adafruit_pypixelbuf.py lines 109-148):
result is `(bpp, byteorder, has_white, dotstar_mode)`.  `has_white` is
initialised `False` at line 127 and never reassigned, so it is `false`
in every branch of the source.  `.index` raises ValueError when the
character is absent; the first occurrence is used. -/
def parse_byteorder (byteorder : List Char) : Except PyErr (Nat × List Nat × Bool × Bool) :=
  if pyStrip byteorder ≠ [] then .error .valueError
  else if ¬ ('R' ∈ byteorder ∧ 'G' ∈ byteorder ∧ 'B' ∈ byteorder) then .error .valueError
  else if 'W' ∈ byteorder then
    .ok (byteorder.length, [byteorder.indexOf 'R', byteorder.indexOf 'G',
      byteorder.indexOf 'B', byteorder.indexOf 'W'], false, false)
  else if 'P' ∈ byteorder then
    .ok (byteorder.length, [byteorder.indexOf 'R', byteorder.indexOf 'G',
      byteorder.indexOf 'B', byteorder.indexOf 'P'], false, true)
  else
    .ok (byteorder.length, [byteorder.indexOf 'R', byteorder.indexOf 'G',
      byteorder.indexOf 'B'], false, false)

/-- State of an `adafruit_pypixelbuf.PixelBuf`.  `transmitBuffer` is the
whole `_transmit_buffer`; `_post_brightness_buffer` is the memoryview
slice of it between `headerLen` and `headerLen + bytesLen`.
`transmits` is the ghost log of buffers passed to the transmit hook. -/
structure State where
  pixels : Nat
  bpp : Nat
  byteorder : List Nat
  hasWhite : Bool
  dotstarMode : Bool
  pixelStep : Nat
  bytesLen : Nat
  headerLen : Nat
  transmitBuffer : Bytes
  preBuffer : Option Bytes
  brightness : PyFloat
  autoWrite : Bool
  transmits : List Bytes
  deriving DecidableEq, Repr

/-- Write through the `_post_brightness_buffer` memoryview: index `i` of
the view is index `headerLen + i` of the transmit buffer, and the view
has length `bytesLen`. -/
def postSet (st : State) (i : Nat) (v : Int) : Except PyErr State :=
  if i < st.bytesLen then
    (bset st.transmitBuffer (st.headerLen + i) v).map
      (fun buf => {st with transmitBuffer := buf})
  else .error .indexError

/-- Current content of the `_post_brightness_buffer` view. -/
def postRegion (st : State) : Bytes :=
  (st.transmitBuffer.drop st.headerLen).take st.bytesLen

/-- Byte of the post-brightness view at index `i`. -/
def postAt (st : State) (i : Nat) : Nat :=
  st.transmitBuffer.getD (st.headerLen + i) 0

/-- `PixelBuf.show` (the `_transmit` hook is abstract in the source;
modelled as appending to the ghost log). -/
def showPixels (st : State) : State :=
  {st with transmits := st.transmits ++ [st.transmitBuffer]}

/-- Loop body of the brightness setter (lines 180-182):
`for i in range(self._bytes): if self._dotstar_mode:
post[i] = int(pre[i] * new_brightness)`.  Only called in DotStar mode
with the pre-brightness buffer present. -/
def recompute (newB : PyFloat) (pre : Bytes) : State → List Nat → Except PyErr State
  | st, [] => .ok st
  | st, i :: rest => do
    let v ← bget pre i
    let st' ← postSet st i (PyFloat.trunc (PyFloat.natMul v newB))
    recompute newB pre st' rest

/-- `PixelBuf.brightness` setter (lines 169-185).  The clamped value is
stored, the pre-brightness buffer is allocated on the first assignment
below 1.0, and the recompute loop body runs only in DotStar mode — over
every byte of the view, start-frame bytes included, using the raw
(unclamped) `new_brightness`.  Subscripting a `None` pre-buffer raises
TypeError. -/
def brightness_set (st : State) (newB : PyFloat) : Except PyErr State := do
  let st := {st with brightness := PyFloat.pymin (PyFloat.pymax newB (PyFloat.fromNat 0)) (PyFloat.fromNat 1)}
  let st := if st.preBuffer = none ∧ PyFloat.blt newB (PyFloat.fromNat 1)
    then {st with preBuffer := some (postRegion st)} else st
  let st ← if st.dotstarMode then
      match st.preBuffer with
      | some pre => recompute newB pre st (List.range st.bytesLen)
      | none => if st.bytesLen = 0 then .ok st else .error .typeError
    else .ok st
  if st.autoWrite then .ok (showPixels st) else .ok st

/-- DotStar initialisation loop (lines 98-100): sets the first byte of
every 4-byte pixel group of the view to `0xFF`. -/
def dotstarInit : State → List Nat → Except PyErr State
  | st, [] => .ok st
  | st, k :: rest => do
    let st' ← postSet st (4 * k) 255
    dotstarInit st' rest

/-- `PixelBuf.__init__` (lines 51-100).  Lines 54-56 overwrite `buf` and
`rawbuf` with `None` before any use, so both arguments are dead.  The
brightness property setter runs with `auto_write = False`, then the
requested auto-write flag is installed and DotStar start frames are
written. -/
def init (n : Nat) (buf : Option Bytes) (byteorder : List Char) (brightness : PyFloat)
    (autoWrite : Bool) (rawbuf : Option Bytes) (header trailer : Bytes) :
    Except PyErr State := do
  let (bpp, bo, hasWhite, dotstar) ← parse_byteorder byteorder
  let effBpp := if dotstar then 4 else bpp
  let bytes := effBpp * n
  let st : State := {
    pixels := n, bpp := bpp, byteorder := bo, hasWhite := hasWhite,
    dotstarMode := dotstar, pixelStep := effBpp, bytesLen := bytes,
    headerLen := header.length,
    transmitBuffer := header ++ List.replicate bytes 0 ++ trailer,
    preBuffer := none,
    brightness := PyFloat.fromNat 1, autoWrite := false, transmits := [] }
  let st ← brightness_set st brightness
  let st := {st with autoWrite := autoWrite}
  if dotstar then dotstarInit st (List.range n) else .ok st

/-- Colour-channel writes of `_set_item` (lines 246-256): with a
pre-brightness buffer, raw values go there and `int(channel *
brightness)` goes to the view; without one, the raw values go to the
view directly. -/
def write_colors (st : State) (offset : Nat) (r g b : Nat) : Except PyErr State :=
  match st.preBuffer with
  | some pre => do
    let pre ← bset pre (offset + st.byteorder.getD 0 0) (r : Int)
    let pre ← bset pre (offset + st.byteorder.getD 1 0) (g : Int)
    let pre ← bset pre (offset + st.byteorder.getD 2 0) (b : Int)
    let st1 := {st with preBuffer := some pre}
    let st2 ← postSet st1 (offset + st.byteorder.getD 0 0)
      (PyFloat.trunc (PyFloat.natMul r st.brightness))
    let st3 ← postSet st2 (offset + st.byteorder.getD 1 0)
      (PyFloat.trunc (PyFloat.natMul g st.brightness))
    postSet st3 (offset + st.byteorder.getD 2 0)
      (PyFloat.trunc (PyFloat.natMul b st.brightness))
  | none => do
    let st1 ← postSet st (offset + st.byteorder.getD 0 0) (r : Int)
    let st2 ← postSet st1 (offset + st.byteorder.getD 1 0) (g : Int)
    postSet st2 (offset + st.byteorder.getD 2 0) (b : Int)

/-- Fourth-channel writes of `_set_item` (lines 259-276): with an
explicit fourth value, DotStar mode packs the start-frame byte, white
mode stores the raw value and its scaled counterpart; with no fourth
value, DotStar mode resets the start frame to `0xFF`.  `byteorder[3]`
raises IndexError when the byteorder tuple has only three entries. -/
def write_fourth (st : State) (offset : Nat) (w : PyFloat) (hasW : Bool) :
    Except PyErr State :=
  if hasW then
    match st.byteorder.get? 3 with
    | none => .error .indexError
    | some bo3 =>
      if st.dotstarMode then
        postSet st (offset + bo3) (lumByte w)
      else
        match st.preBuffer with
        | some pre => do
          let pre ← bsetFloat pre (offset + bo3) w
          let st1 := {st with preBuffer := some pre}
          postSet st1 (offset + bo3) (PyFloat.trunc (PyFloat.mul w st.brightness))
        | none => postSet st (offset + bo3) (PyFloat.trunc (PyFloat.mul w st.brightness))
  else if st.dotstarMode then
    match st.byteorder.get? 3 with
    | none => .error .indexError
    | some bo3 => postSet st (offset + bo3) (255 : Int)
  else .ok st

/-- Value decomposition of `_set_item` (lines 218-244): the source's
branch ladder for `r, g, b, w, has_w`.  A fallen-through shape (e.g. a
4-sequence on a 3-bpp buffer) leaves all channels at their zero
initialisation, as in the source. -/
def decompose (st : State) (value : PixelValue) : ColorParts :=
  match value with
  | .int v =>
    let r := v >>> 16
    let g := (v >>> 8) &&& 0xff
    let b := v &&& 0xff
    if st.bpp = 4 ∧ st.hasWhite = true ∧ r = g ∧ g = b then
      ⟨0, 0, 0, PyFloat.fromNat r, false⟩
    else if st.dotstarMode then ⟨r, g, b, PyFloat.fromNat 1, false⟩
    else ⟨r, g, b, PyFloat.fromNat 0, false⟩
  | .t3 r g b =>
    if 3 = st.bpp then ⟨r, g, b, PyFloat.fromNat 0, false⟩
    else if st.dotstarMode then ⟨r, g, b, PyFloat.fromNat 0, false⟩
    else ⟨0, 0, 0, PyFloat.fromNat 0, false⟩
  | .t4 r g b w =>
    if 4 = st.bpp then ⟨r, g, b, w, true⟩
    else ⟨0, 0, 0, PyFloat.fromNat 0, false⟩

/-- `PixelBuf._set_item` (lines 212-276): wrap and bounds-check the
index, decompose the value, then perform the colour-channel and
fourth-channel writes. -/
def set_item (st : State) (index : Int) (value : PixelValue) : Except PyErr State := do
  let index := pyWrapIndex index st.pixels
  if index ≥ (st.pixels : Int) ∨ index < 0 then .error .indexError else do
  let offset := index.toNat * st.bpp
  let d := decompose st value
  let st2 ← write_colors st offset d.r d.g d.b
  write_fourth st2 offset d.w d.hasW

/-- `PixelBuf.__setitem__` with an int index: `_set_item` then the
auto-write check. -/
def setitem_index (st : State) (i : Int) (v : PixelValue) : Except PyErr State := do
  let st ← set_item st i v
  if st.autoWrite then .ok (showPixels st) else .ok st

/-- Slice-assignment loop (lines 281-282):
`for val_i, in_i in enumerate(range(start, stop, step)):
self._set_item(in_i, val[val_i])`; indexing `val` past its end raises
IndexError. -/
def slice_loop (vals : List PixelValue) : State → List (Nat × Int) → Except PyErr State
  | st, [] => .ok st
  | st, (vi, ini) :: rest =>
    match vals.get? vi with
    | none => .error .indexError
    | some v => do
      let st' ← set_item st ini v
      slice_loop vals st' rest

/-- `PixelBuf.__setitem__` with a slice (lines 278-287): resolve the
slice against `self._pixels` and assign positionally.  The source
performs no length comparison between the slice and the input. -/
def setitem_slice (st : State) (start stop step : Option Int) (vals : List PixelValue) :
    Except PyErr State := do
  let (s, e, t) ← pySliceIndices start stop step st.pixels
  let st ← slice_loop vals st (pyRange s e t).enum
  if st.autoWrite then .ok (showPixels st) else .ok st

/-- Iteration body of `fill` (lines 325-326): `for i, _ in
enumerate(self): self[i] = color`.  Old-protocol iteration reads
`self[i]` (a pure, always-successful read for `i < pixels`, discarded)
and ends at `i = pixels` via IndexError, so the loop is `__setitem__`
over `0 .. pixels - 1`. -/
def fill_loop (c : PixelValue) : State → List Nat → Except PyErr State
  | st, [] => .ok st
  | st, i :: rest => do
    let st' ← setitem_index st (i : Int) c
    fill_loop c st' rest

/-- `PixelBuf.fill` (lines 318-329): save auto-write, clear it, set
every pixel, transmit once when the saved flag was set, restore it. -/
def fill (st : State) (color : PixelValue) : Except PyErr State := do
  let autoW := st.autoWrite
  let st := {st with autoWrite := false}
  let st ← fill_loop color st (List.range st.pixels)
  let st := if autoW then showPixels st else st
  .ok {st with autoWrite := autoW}

/-- Fold of bare `_set_item` over a list of indices (no per-pixel
auto-write check); used to state what `fill` amounts to. -/
def set_all (c : PixelValue) : State → List Nat → Except PyErr State
  | st, [] => .ok st
  | st, i :: rest => do
    let st' ← set_item st (i : Int) c
    set_all c st' rest

end APB

namespace PPB

/-- One `ByteOrder` subclass of `pypixelbuf.py`: the class attributes
`has_white`, `has_luminosity`, `bpp` and `byteorder`. -/
structure ByteOrderClass where
  hasWhite : Bool
  hasLuminosity : Bool
  bpp : Nat
  byteorder : List Nat
  deriving DecidableEq, Repr

/-- Preset `RGB` (lines 42-43). -/
def RGB : ByteOrderClass := ⟨false, false, 3, [0, 1, 2]⟩

/-- Preset `GRB` (lines 50-51). -/
def GRB : ByteOrderClass := ⟨false, false, 3, [1, 0, 2]⟩

/-- Preset `BGR` (lines 62-63), the constructor default. -/
def BGR : ByteOrderClass := ⟨false, false, 3, [2, 1, 0]⟩

/-- Preset `RGBW` (lines 66-69). -/
def RGBW : ByteOrderClass := ⟨true, false, 4, [0, 1, 2, 3]⟩

/-- Preset `GRBW` (lines 78-81). -/
def GRBW : ByteOrderClass := ⟨true, false, 4, [1, 0, 2, 3]⟩

/-- Preset `LRGB` (lines 102-105). -/
def LRGB : ByteOrderClass := ⟨false, true, 4, [1, 2, 3, 0]⟩

/-- Preset `LBGR` (lines 132-135). -/
def LBGR : ByteOrderClass := ⟨false, true, 4, [3, 2, 1, 0]⟩

/-- State of a `pypixelbuf.PixelBuf`.  `bytearray` is the borrowed
`buf`; `rawbytearray` the optional raw buffer.  `hasWriteFunction`
records whether a `write_function` was supplied and `transmits` is the
ghost count of calls to it (`write_args` handling is not modelled). -/
structure State where
  pixels : Nat
  bytesLen : Nat
  byteorder : ByteOrderClass
  bytearray : Bytes
  twoBuffers : Bool
  rawbytearray : Option Bytes
  offsetVal : Nat
  dotstarMode : Bool
  pixelStep : Nat
  autoWrite : Bool
  brightness : PyFloat
  hasWriteFunction : Bool
  transmits : Nat
  deriving DecidableEq, Repr

/-- `PixelBuf.show` (lines 266-271): call the write function when one
was supplied. -/
def showPixels (st : State) : State :=
  if st.hasWriteFunction then {st with transmits := st.transmits + 1} else st

/-- DotStar initialisation loop (lines 214-216): byte `offset + 4*k` of
`buf` is set to `0xFF` for every pixel `k`. -/
def dotstarInit : State → List Nat → Except PyErr State
  | st, [] => .ok st
  | st, k :: rest => do
    let arr ← bset st.bytearray (4 * k + st.offsetVal) 255
    dotstarInit {st with bytearray := arr} rest

/-- `PixelBuf.__init__` (lines 163-216).  The type checks on `buf`,
`rawbuf` and `byteorder` are carried by the embedding's types; DotStar
mode requires a luminosity byteorder; the size checks reproduce the
source's comparisons verbatim (including `len(buf) + offset < _bytes`,
written with `+`); lines 197-205 (unreachable after the luminosity
check) are transcribed as the identity they amount to. -/
def init (n : Nat) (buf : Bytes) (byteorder : ByteOrderClass) (brightness : PyFloat)
    (rawbuf : Option Bytes) (offset : Nat) (dotstar : Bool) (autoWrite : Bool)
    (hasWriteFunction : Bool) : Except PyErr State := do
  if dotstar ∧ byteorder.hasLuminosity = false then .error .valueError else do
  let effBpp := if dotstar then 4 else byteorder.bpp
  let bytes := effBpp * n
  let two := rawbuf.isSome
  if two ∧ buf.length ≠ (rawbuf.getD []).length then .error .valueError else do
  if buf.length + offset < bytes then .error .typeError else do
  if two ∧ (rawbuf.getD []).length + offset < bytes then .error .typeError else do
  let bo := if dotstar ∧ byteorder.hasLuminosity = false then
      ByteOrderClass.mk byteorder.hasWhite true byteorder.bpp
        [byteorder.byteorder.getD 0 0 + 1, byteorder.byteorder.getD 1 0 + 1,
         byteorder.byteorder.getD 2 0 + 1, 0]
    else byteorder
  let st : State := {
    pixels := n, bytesLen := bytes, byteorder := bo, bytearray := buf,
    twoBuffers := two, rawbytearray := rawbuf, offsetVal := offset,
    dotstarMode := dotstar, pixelStep := effBpp, autoWrite := autoWrite,
    brightness := PyFloat.pymin (PyFloat.fromNat 1) (PyFloat.pymax (PyFloat.fromNat 0) brightness),
    hasWriteFunction := hasWriteFunction, transmits := 0 }
  if dotstar then dotstarInit st (List.range n) else .ok st

/-- Raw-buffer colour writes of `_set_item` (lines 307-310): with two
buffers, the unscaled channels go to the raw bytearray. -/
def raw_colors (two : Bool) (rawOpt : Option Bytes) (p0 p1 p2 : Nat) (r g b : Nat) :
    Except PyErr (Option Bytes) :=
  if two then
    match rawOpt with
    | some raw => do
      let raw ← bset raw p0 (r : Int)
      let raw ← bset raw p1 (g : Int)
      let raw ← bset raw p2 (b : Int)
      .ok (some raw)
    | none => .error .typeError
  else .ok rawOpt

/-- Raw-buffer fourth-channel copy of `_set_item` (lines 325-326): with
two buffers, the raw fourth byte receives a copy of the value just
stored in the main buffer. -/
def raw_copy (two : Bool) (rawOpt : Option Bytes) (arr : Bytes) (p : Nat) :
    Except PyErr (Option Bytes) :=
  if two then
    match rawOpt with
    | some raw => do
      let v ← bget arr p
      let raw ← bset raw p (v : Int)
      .ok (some raw)
    | none => .error .typeError
  else .ok rawOpt

/-- Value decomposition of `_set_item` (lines 284-305): the source's
branch ladder for `r, g, b, w, has_w` — note the luminosity-class tests
at lines 296 and 304 against `self._byteorder.has_luminosity`. -/
def decompose (st : State) (value : PixelValue) : ColorParts :=
  match value with
  | .int v =>
    let r := v >>> 16
    let g := (v >>> 8) &&& 0xff
    let b := v &&& 0xff
    if st.byteorder.bpp = 4 ∧ st.byteorder.hasWhite = true ∧ r = g ∧ g = b then
      ⟨0, 0, 0, PyFloat.fromNat r, false⟩
    else if st.byteorder.hasLuminosity then ⟨r, g, b, PyFloat.fromNat 1, false⟩
    else ⟨r, g, b, PyFloat.fromNat 0, false⟩
  | .t3 r g b =>
    if 3 = st.byteorder.bpp then ⟨r, g, b, PyFloat.fromNat 0, false⟩
    else if st.byteorder.hasLuminosity then ⟨r, g, b, PyFloat.fromNat 0, false⟩
    else ⟨0, 0, 0, PyFloat.fromNat 0, false⟩
  | .t4 r g b w =>
    if 4 = st.byteorder.bpp then ⟨r, g, b, w, true⟩
    else ⟨0, 0, 0, PyFloat.fromNat 0, false⟩

/-- `PixelBuf._set_item` (lines 273-328).  With two buffers the raw
bytes receive the unscaled colour channels (`raw_colors`); the main
buffer always receives `int(channel * brightness)`.  An explicit fourth
value is packed as the DotStar start frame (on the test at line 316
against `self._dotstar_mode`) or stored as `int(w * brightness)`, with
the raw copy of lines 325-326 (`raw_copy`). -/
def set_item (st : State) (index : Int) (value : PixelValue) : Except PyErr State := do
  let index := pyWrapIndex index st.pixels
  if index ≥ (st.pixels : Int) ∨ index < 0 then .error .indexError else do
  let offset := st.offsetVal + index.toNat * st.byteorder.bpp
  let d := decompose st value
  let newRaw ← raw_colors st.twoBuffers st.rawbytearray
    (offset + st.byteorder.byteorder.getD 0 0) (offset + st.byteorder.byteorder.getD 1 0)
    (offset + st.byteorder.byteorder.getD 2 0) d.r d.g d.b
  let arr ← bset st.bytearray (offset + st.byteorder.byteorder.getD 0 0)
    (PyFloat.trunc (PyFloat.natMul d.r st.brightness))
  let arr ← bset arr (offset + st.byteorder.byteorder.getD 1 0)
    (PyFloat.trunc (PyFloat.natMul d.g st.brightness))
  let arr ← bset arr (offset + st.byteorder.byteorder.getD 2 0)
    (PyFloat.trunc (PyFloat.natMul d.b st.brightness))
  if d.hasW then
    match st.byteorder.byteorder.get? 3 with
    | none => .error .indexError
    | some bo3 => do
      let arr2 ← if st.dotstarMode then
          bset arr (offset + bo3) (lumByte d.w)
        else
          bset arr (offset + bo3) (PyFloat.trunc (PyFloat.mul d.w st.brightness))
      let finalRaw ← raw_copy st.twoBuffers newRaw arr2 (offset + bo3)
      .ok {st with bytearray := arr2, rawbytearray := finalRaw}
  else if st.dotstarMode then
    match st.byteorder.byteorder.get? 3 with
    | none => .error .indexError
    | some bo3 => do
      let arr2 ← bset arr (offset + bo3) (255 : Int)
      .ok {st with bytearray := arr2, rawbytearray := newRaw}
  else .ok {st with bytearray := arr, rawbytearray := newRaw}

/-- Slice-assignment loop of `__setitem__` (lines 338-339). -/
def slice_loop (vals : List PixelValue) : State → List (Nat × Int) → Except PyErr State
  | st, [] => .ok st
  | st, (vi, ini) :: rest =>
    match vals.get? vi with
    | none => .error .indexError
    | some v => do
      let st' ← set_item st ini v
      slice_loop vals st' rest

/-- `PixelBuf.__setitem__` with a slice (lines 330-344): resolve against
`self._pixels`, compute `length = stop - start` then
`ceil(length / step)` when the step is nonzero, raise ValueError on a
mismatch with the input length, then assign positionally and run the
auto-write check. -/
def setitem_slice (st : State) (start stop step : Option Int) (vals : List PixelValue) :
    Except PyErr State := do
  let (s, e, t) ← pySliceIndices start stop step st.pixels
  if (vals.length : Int) ≠ (if t ≠ 0 then pyCeilDiv (e - s) t else e - s) then
    .error .valueError
  else do
  let st ← slice_loop vals st (pyRange s e t).enum
  if st.autoWrite then .ok (showPixels st) else .ok st

/-- Byte of `buf` holding channel `k` of pixel `index`. -/
def readChannel (st : State) (index : Nat) (k : Nat) : Except PyErr Nat :=
  bget st.bytearray (st.offsetVal + index * st.byteorder.bpp + st.byteorder.byteorder.getD k 0)

/-- `PixelBuf._getitem` (lines 346-353): a white byteorder yields the
`bpp` channel bytes; otherwise the three colour bytes plus the decoded
duty cycle `(byte & 0b00011111) / 31.0` — unconditionally reading
`byteorder[3]`, which raises IndexError on a 3-entry byteorder. -/
def getitem_at (st : State) (index : Nat) : Except PyErr (List PyVal) :=
  if st.byteorder.hasWhite then do
    let vals ← (List.range st.byteorder.bpp).mapM (fun k => readChannel st index k)
    .ok (vals.map PyVal.int)
  else
    match st.byteorder.byteorder.get? 3 with
    | none => .error .indexError
    | some bo3 => do
      let r ← readChannel st index 0
      let g ← readChannel st index 1
      let b ← readChannel st index 2
      let lum ← bget st.bytearray (st.offsetVal + index * st.byteorder.bpp + bo3)
      .ok [PyVal.int r, PyVal.int g, PyVal.int b, PyVal.float ⟨(lum &&& 31 : Nat), 31⟩]

/-- `PixelBuf.__getitem__` with a slice (lines 355-360): the slice is
resolved against `len(self._bytearray) // self.bpp`, not against the
pixel count.  (Resolved indices are nonnegative whenever the range is
nonempty, so the `toNat` coercion is faithful.) -/
def getitem_slice (st : State) (start stop step : Option Int) :
    Except PyErr (List (List PyVal)) := do
  let m := st.bytearray.length / st.byteorder.bpp
  let (s, e, t) ← pySliceIndices start stop step m
  (pyRange s e t).mapM (fun i => getitem_at st i.toNat)

end PPB

/-- One-pixel RGB `adafruit_pypixelbuf` buffer constructed with
brightness 0.5: the pre-brightness buffer was allocated during
construction. -/
def c2State : APB.State :=
  { pixels := 1, bpp := 3, byteorder := [0, 1, 2], hasWhite := false,
    dotstarMode := false, pixelStep := 3, bytesLen := 3, headerLen := 0,
    transmitBuffer := [0, 0, 0], preBuffer := some [0, 0, 0],
    brightness := ⟨1, 2⟩, autoWrite := false, transmits := [] }

/-- `c2State` after `set_item 0 (3, 0, 0)`. -/
def c2Result : APB.State :=
  { c2State with preBuffer := some [3, 0, 0], transmitBuffer := [1, 0, 0] }

/-- `c2State` after the colour-channel writes for `(3, 4, 5)`. -/
def c2WitnessResult : APB.State :=
  { c2State with preBuffer := some [3, 4, 5], transmitBuffer := [1, 2, 2] }

/-- One-pixel DotStar (`"PBGR"`) `adafruit_pypixelbuf` buffer
constructed with brightness 0.5: the start-frame byte (position 0) holds
`0xFF`, while the pre-brightness buffer — copied before the start-frame
initialisation — holds zeros there. -/
def c3State : APB.State :=
  { pixels := 1, bpp := 4, byteorder := [3, 2, 1, 0], hasWhite := false,
    dotstarMode := true, pixelStep := 4, bytesLen := 4, headerLen := 0,
    transmitBuffer := [255, 0, 0, 0], preBuffer := some [0, 0, 0, 0],
    brightness := ⟨1, 2⟩, autoWrite := false, transmits := [] }

/-- `c3State` after assigning brightness 0.5 again. -/
def c3After : APB.State := { c3State with transmitBuffer := [0, 0, 0, 0] }

/-- One-pixel `pypixelbuf` RGBW buffer over a fresh 4-byte array. -/
def c4State : PPB.State :=
  { pixels := 1, bytesLen := 4, byteorder := PPB.RGBW,
    bytearray := [0, 0, 0, 0], twoBuffers := false, rawbytearray := none,
    offsetVal := 0, dotstarMode := false, pixelStep := 4, autoWrite := false,
    brightness := ⟨1, 1⟩, hasWriteFunction := false, transmits := 0 }

/-- Two-pixel RGB `adafruit_pypixelbuf` buffer at brightness 1. -/
def c7State : APB.State :=
  { pixels := 2, bpp := 3, byteorder := [0, 1, 2], hasWhite := false,
    dotstarMode := false, pixelStep := 3, bytesLen := 6, headerLen := 0,
    transmitBuffer := [0, 0, 0, 0, 0, 0], preBuffer := none,
    brightness := ⟨1, 1⟩, autoWrite := false, transmits := [] }

/-- `c7State` after the slice assignment `self[0:1] = [(7,8,9), (1,2,3)]`:
only the first input is consumed. -/
def c7After : APB.State := { c7State with transmitBuffer := [7, 8, 9, 0, 0, 0] }

/-- Two-pixel RGB `pypixelbuf` buffer at brightness 1. -/
def c7bState : PPB.State :=
  { pixels := 2, bytesLen := 6, byteorder := PPB.RGB,
    bytearray := [0, 0, 0, 0, 0, 0], twoBuffers := false, rawbytearray := none,
    offsetVal := 0, dotstarMode := false, pixelStep := 3, autoWrite := false,
    brightness := ⟨1, 1⟩, hasWriteFunction := false, transmits := 0 }

/-- One-pixel `pypixelbuf` RGBW buffer whose borrowed byte array has 8
bytes — twice the pixel data size, which the constructor accepts. -/
def c8State : PPB.State :=
  { pixels := 1, bytesLen := 4, byteorder := PPB.RGBW,
    bytearray := [1, 2, 3, 4, 5, 6, 7, 8], twoBuffers := false,
    rawbytearray := none, offsetVal := 0, dotstarMode := false,
    pixelStep := 4, autoWrite := false, brightness := ⟨1, 1⟩,
    hasWriteFunction := false, transmits := 0 }

/-- One-pixel `pypixelbuf` DotStar buffer (byteorder `LRGB`) at
brightness 1, start frame initialised. -/
def c9State : PPB.State :=
  { pixels := 1, bytesLen := 4, byteorder := PPB.LRGB,
    bytearray := [255, 0, 0, 0], twoBuffers := false, rawbytearray := none,
    offsetVal := 0, dotstarMode := true, pixelStep := 4, autoWrite := false,
    brightness := ⟨1, 1⟩, hasWriteFunction := false, transmits := 0 }

/-- `c9State` after `set_item 0 (10, 20, 30, 1.0)`. -/
def c9After : PPB.State := { c9State with bytearray := [255, 10, 20, 30] }

/-- `c9State` after `set_item 0 (10, 20, 30, 0.0)`. -/
def c9After0 : PPB.State := { c9State with bytearray := [224, 10, 20, 30] }

/-- One-pixel RGB `adafruit_pypixelbuf` buffer with auto-write enabled
and an empty transmit log. -/
def c10State : APB.State :=
  { pixels := 1, bpp := 3, byteorder := [0, 1, 2], hasWhite := false,
    dotstarMode := false, pixelStep := 3, bytesLen := 3, headerLen := 0,
    transmitBuffer := [0, 0, 0], preBuffer := none,
    brightness := ⟨1, 1⟩, autoWrite := true, transmits := [] }

/-- `c10State` after `fill((7, 8, 9))`: one transmit of the final
buffer. -/
def c10After : APB.State :=
  { c10State with transmitBuffer := [7, 8, 9], transmits := [[7, 8, 9]] }

theorem bindOk {ε α β : Type _} {x : Except ε α} {f : α → Except ε β} {b : β}
    (h : (x >>= f) = .ok b) : ∃ a, x = .ok a ∧ f a = .ok b := by
  cases x with
  | error e => exact Except.noConfusion h
  | ok a => exact ⟨a, rfl, h⟩

theorem bset_ok {l l' : Bytes} {i : Nat} {v : Int} (h : bset l i v = .ok l') :
    l' = l.set i v.toNat ∧ i < l.length ∧ 0 ≤ v ∧ v < 256 := by
  unfold bset at h
  by_cases h1 : i < l.length
  · rw [if_pos h1] at h
    by_cases h2 : 0 ≤ v ∧ v < 256
    · rw [if_pos h2] at h
      cases h
      exact ⟨rfl, h1, h2.1, h2.2⟩
    · rw [if_neg h2] at h
      exact Except.noConfusion h
  · rw [if_neg h1] at h
    exact Except.noConfusion h

theorem postSet_ok {st st' : APB.State} {i : Nat} {v : Int}
    (h : APB.postSet st i v = .ok st') :
    st' = {st with transmitBuffer := st.transmitBuffer.set (st.headerLen + i) v.toNat} ∧
      st.headerLen + i < st.transmitBuffer.length ∧ 0 ≤ v ∧ v < 256 := by
  unfold APB.postSet at h
  by_cases h1 : i < st.bytesLen
  · rw [if_pos h1] at h
    cases hb : bset st.transmitBuffer (st.headerLen + i) v with
    | error e => rw [hb] at h; exact Except.noConfusion h
    | ok buf =>
      rw [hb] at h
      obtain ⟨rfl, h2, h3, h4⟩ := bset_ok hb
      cases h
      exact ⟨rfl, h2, h3, h4⟩
  · rw [if_neg h1] at h
    exact Except.noConfusion h

theorem getD_set_self {l : List Nat} {i : Nat} (v : Nat) (h : i < l.length) :
    (l.set i v).getD i 0 = v := by
  rw [List.getD_eq_getElem?_getD, List.getElem?_set_self h]
  rfl

theorem getD_set_ne {l : List Nat} {i j : Nat} (v : Nat) (h : i ≠ j) :
    (l.set i v).getD j 0 = l.getD j 0 := by
  rw [List.getD_eq_getElem?_getD, List.getElem?_set_ne h, ← List.getD_eq_getElem?_getD]

theorem PyFloat.trunc_eq_floor (x : PyFloat) (h : 0 ≤ x.num) : x.trunc = ⌊x.toRat⌋ := by
  unfold PyFloat.trunc PyFloat.toRat
  rw [Rat.floor_intCast_div_natCast]
  exact Int.tdiv_eq_ediv h (by positivity)

theorem PyFloat.natMul_toRat (n : Nat) (x : PyFloat) :
    (PyFloat.natMul n x).toRat = n * x.toRat := by
  unfold PyFloat.natMul PyFloat.toRat
  push_cast
  ring

theorem PyFloat.natSub_toRat (n : Nat) (x : PyFloat) (h : 0 < x.den) :
    (PyFloat.natSub n x).toRat = n - x.toRat := by
  unfold PyFloat.natSub PyFloat.toRat
  have hd : ((x.den : ℚ)) ≠ 0 := by positivity
  push_cast
  field_simp

theorem PyFloat.mul_toRat (x y : PyFloat) :
    (PyFloat.mul x y).toRat = x.toRat * y.toRat := by
  unfold PyFloat.mul PyFloat.toRat
  push_cast
  ring

theorem land_lor_ofNat (m : Nat) :
    Int.lor (Int.land (Int.ofNat m) 31) 224 = Int.ofNat ((m &&& 31) ||| 224) := rfl

theorem lumByte_eq (w : PyFloat) (hd : 0 < w.den) (hn : 0 ≤ w.num)
    (hle : w.toRat ≤ 1) :
    lumByte w = Int.ofNat (((32 - ⌊(32 : ℚ) - w.toRat * 31⌋).toNat &&& 31) ||| 224) := by
  have hden : (PyFloat.natMul 31 w).den = w.den := rfl
  have ht0 : 0 ≤ w.toRat := by
    unfold PyFloat.toRat
    positivity
  have hnum : 0 ≤ (PyFloat.natSub 32 (PyFloat.natMul 31 w)).num := by
    show (0 : ℤ) ≤ (32 : ℕ) * ((PyFloat.natMul 31 w).den : ℤ) - (PyFloat.natMul 31 w).num
    show (0 : ℤ) ≤ (32 : ℕ) * ((w.den : ℤ)) - (31 : ℕ) * w.num
    have hnd : w.num ≤ (w.den : ℤ) := by
      have := (div_le_one (by positivity : (0 : ℚ) < (w.den : ℚ))).mp hle
      exact_mod_cast this
    push_cast
    nlinarith [hnd]
  have hsub : (PyFloat.natSub 32 (PyFloat.natMul 31 w)).toRat = 32 - w.toRat * 31 := by
    rw [PyFloat.natSub_toRat _ _ (by rw [hden]; exact hd), PyFloat.natMul_toRat]
    ring
  have htr : PyFloat.trunc (PyFloat.natSub 32 (PyFloat.natMul 31 w)) =
      ⌊(32 : ℚ) - w.toRat * 31⌋ := by
    rw [PyFloat.trunc_eq_floor _ hnum, hsub]
  have ha0 : 0 ≤ (32 : ℤ) - ⌊(32 : ℚ) - w.toRat * 31⌋ := by
    have hle32 : (32 : ℚ) - w.toRat * 31 ≤ 32 := by nlinarith [ht0]
    have h1 := Int.floor_le_floor hle32
    have h2 : ⌊(32 : ℚ)⌋ = 32 := by norm_num
    omega
  unfold lumByte
  rw [htr]
  rw [← Int.toNat_of_nonneg ha0]
  exact land_lor_ofNat _

theorem pyStrip_eq_nil_iff (l : List Char) :
    APB.pyStrip l = [] ↔ ∀ c ∈ l, c ∈ APB.rgbwpChars := by
  unfold APB.pyStrip
  rw [List.reverse_eq_nil_iff, List.dropWhile_eq_nil_iff]
  constructor
  · intro h x hx
    have hsplit := List.takeWhile_append_dropWhile
      (fun c => decide (c ∈ APB.rgbwpChars)) l
    rw [← hsplit] at hx
    rcases List.mem_append.mp hx with hx1 | hx2
    · have hp := List.mem_takeWhile_imp hx1
      exact of_decide_eq_true hp
    · have hp := h x (List.mem_reverse.mpr hx2)
      exact of_decide_eq_true hp
  · intro h x hx
    show decide (x ∈ APB.rgbwpChars) = true
    exact decide_eq_true (h x ((List.dropWhile_sublist _).subset (List.mem_reverse.mp hx)))

/-- C1: the spec says a byteorder string containing `W` parses with
`has_white = true`; in `adafruit_pypixelbuf.py` the local `has_white` is
initialised `False` (line 127) and never set, so `parse_byteorder`
returns `has_white = false` even for `"RGBW"` — the white-channel logic
of `_set_item` and `_getitem` guarded by `self._has_white` is dead code.
The sibling `pypixelbuf.py` preset `RGBW` does carry
`has_white = True`, which is the evident intent. -/
theorem parse_byteorder_W_yields_has_white_false :
    APB.parse_byteorder ['R', 'G', 'B', 'W'] = .ok (4, [0, 1, 2, 3], false, false) ∧
    PPB.RGBW.hasWhite = true := ⟨rfl, rfl⟩

/-- C2 counterexample: with brightness 0.5 and a pre-brightness buffer,
`set_item 0 (3, 0, 0)` stores raw value 3 and physical byte
`int(3 * 0.5) = 1`, yet `round(3 * 0.5) = 2`: the physical byte is the
truncation, not the rounding, of `raw * brightness`. -/
theorem set_item_rounds_down_counterexample :
    APB.init 1 none ['R', 'G', 'B'] ⟨1, 2⟩ false none [] [] = .ok c2State ∧
    APB.set_item c2State 0 (.t3 3 0 0) = .ok c2Result ∧
    c2Result.preBuffer = some [3, 0, 0] ∧
    APB.postAt c2Result 0 = 1 ∧
    round ((3 : ℚ) * c2State.brightness.toRat) = 2 := by
  refine ⟨rfl, rfl, rfl, rfl, ?_⟩
  have h : c2State.brightness.toRat = 1 / 2 := by
    norm_num [c2State, PyFloat.toRat]
  rw [h]
  norm_num [round_eq]

/-- C3: the spec says the global brightness setter never touches the
DotStar per-pixel start-frame byte.  In `adafruit_pypixelbuf.py` the
recompute loop (lines 180-182) runs over every byte of the view with no
start-frame exclusion (unlike `pypixelbuf.py`'s `i % 4 != offset_check`
guard), scaling each byte from the pre-brightness buffer — which holds 0
at start-frame positions, because it is copied before the start frames
are initialised.  On a 1-pixel `"PBGR"` buffer built at brightness 0.5,
re-assigning brightness 0.5 overwrites the start-frame byte 0xFF with
0. -/
theorem brightness_setter_rewrites_start_frame :
    APB.init 1 none ['P', 'B', 'G', 'R'] ⟨1, 2⟩ false none [] [] = .ok c3State ∧
    APB.postAt c3State (c3State.byteorder.getD 3 0) = 255 ∧
    APB.brightness_set c3State ⟨1, 2⟩ = .ok c3After ∧
    APB.postAt c3After (c3State.byteorder.getD 3 0) = 0 :=
  ⟨rfl, rfl, rfl, rfl⟩

/-- C4: the spec says `set(0, 0x0A0A0A)` on an RGBW buffer yields
`R=G=B=0, W=0x0A`.  In `pypixelbuf.py` the equal-channel collapse
(lines 291-295) sets the local `w = r` but leaves `has_w` false, so the
white byte is never written: the result is `R=G=B=0` and `W`
unchanged (0 on a fresh buffer), not `W=0x0A`.  The comment above the
collapse ("use it instead of the individual components") states the
intent the code misses. -/
theorem white_collapse_never_writes_white_byte :
    PPB.init 1 [0, 0, 0, 0] PPB.RGBW ⟨1, 1⟩ none 0 false false false = .ok c4State ∧
    PPB.set_item c4State 0 (.int 0x0A0A0A) = .ok c4State ∧
    c4State.bytearray.getD 3 0 = 0 ∧
    (0x0A : Nat) ≠ 0 :=
  ⟨rfl, rfl, rfl, by decide⟩

/-- C5: `adafruit_pypixelbuf.PixelBuf.__init__` overwrites its `buf` and
`rawbuf` arguments with `None` (lines 54-56) before any use, so
construction — and hence every subsequent operation on the resulting
state — is insensitive to both arguments. -/
theorem init_ignores_buf_and_rawbuf (n : Nat) (buf buf' rawbuf rawbuf' : Option Bytes)
    (byteorder : List Char) (brightness : PyFloat) (autoWrite : Bool)
    (header trailer : Bytes) :
    APB.init n buf byteorder brightness autoWrite rawbuf header trailer =
      APB.init n buf' byteorder brightness autoWrite rawbuf' header trailer := rfl

/-- C6 counterexample: `"RRGB"` contains `R` twice, yet
`parse_byteorder` accepts it (using the first occurrence), because
`.index` never checks for duplicates. -/
theorem parse_byteorder_accepts_duplicate_R :
    (['R', 'R', 'G', 'B'].count 'R' = 2) ∧
    APB.parse_byteorder ['R', 'R', 'G', 'B'] = .ok (4, [0, 2, 3], false, false) :=
  ⟨by decide, rfl⟩

/-- C6 amended: `parse_byteorder` fails (with ValueError) exactly when
the descriptor contains a character outside `{R,G,B,W,P}` or one of
`R`, `G`, `B` is absent; duplicated `R`/`G`/`B` characters are not
rejected — the first occurrence is used. -/
theorem parse_byteorder_error_iff (bo : List Char) :
    (∃ err, APB.parse_byteorder bo = .error err) ↔
      ((∃ c ∈ bo, c ∉ APB.rgbwpChars) ∨ 'R' ∉ bo ∨ 'G' ∉ bo ∨ 'B' ∉ bo) := by
  unfold APB.parse_byteorder
  by_cases h1 : APB.pyStrip bo = []
  · have hall : ∀ c ∈ bo, c ∈ APB.rgbwpChars := (pyStrip_eq_nil_iff bo).mp h1
    rw [if_neg (fun hne => hne h1)]
    by_cases h2 : 'R' ∈ bo ∧ 'G' ∈ bo ∧ 'B' ∈ bo
    · rw [if_neg (not_not_intro h2)]
      constructor
      · rintro ⟨err, herr⟩
        by_cases h3 : 'W' ∈ bo
        · rw [if_pos h3] at herr
          exact Except.noConfusion herr
        · rw [if_neg h3] at herr
          by_cases h4 : 'P' ∈ bo
          · rw [if_pos h4] at herr
            exact Except.noConfusion herr
          · rw [if_neg h4] at herr
            exact Except.noConfusion herr
      · intro h
        rcases h with ⟨c, hc, hcn⟩ | h | h | h
        · exact absurd (hall c hc) hcn
        · exact absurd h2.1 h
        · exact absurd h2.2.1 h
        · exact absurd h2.2.2 h
    · rw [if_pos h2]
      constructor
      · intro _
        right
        by_cases hR : 'R' ∈ bo
        · by_cases hG : 'G' ∈ bo
          · exact .inr (.inr (fun hB => h2 ⟨hR, hG, hB⟩))
          · exact .inr (.inl hG)
        · exact .inl hR
      · intro _
        exact ⟨.valueError, rfl⟩
  · rw [if_pos h1]
    constructor
    · intro _
      left
      have hnall : ¬ ∀ c ∈ bo, c ∈ APB.rgbwpChars :=
        fun hall => h1 ((pyStrip_eq_nil_iff bo).mpr hall)
      push_neg at hnall
      exact hnall
    · intro _
      exact ⟨.valueError, rfl⟩

/-- C7 counterexample: `adafruit_pypixelbuf`'s slice assignment performs
no length comparison.  On a 2-pixel buffer, `self[0:1] = [(7,8,9),
(1,2,3)]` — input length 2 against a resolved slice of length 1 —
succeeds, silently ignoring the extra value. -/
theorem setitem_slice_no_length_check :
    APB.setitem_slice c7State (some 0) (some 1) none [.t3 7 8 9, .t3 1 2 3] = .ok c7After ∧
    ([PixelValue.t3 7 8 9, PixelValue.t3 1 2 3] : List PixelValue).length = 2 ∧
    pyRangeLen 0 1 1 = 1 ∧
    (2 : Nat) ≠ 1 :=
  ⟨rfl, rfl, rfl, by decide⟩

/-- C8: the spec says slice reads resolve the slice against the pixel
count; both sources resolve it against `len(self._bytearray) //
self.bpp` instead (`adafruit_pypixelbuf` even references a
`_bytearray` attribute its class never assigns, so every slice read
raises AttributeError there).  On a 1-pixel `pypixelbuf` RGBW buffer
over an 8-byte array, the full slice `[:]` returns two per-pixel
results, reading past the last pixel. -/
theorem getitem_slice_resolves_against_buffer_length :
    PPB.init 1 [1, 2, 3, 4, 5, 6, 7, 8] PPB.RGBW ⟨1, 1⟩ none 0 false false false = .ok c8State ∧
    c8State.pixels = 1 ∧
    PPB.getitem_slice c8State none none none =
      .ok [[.int 1, .int 2, .int 3, .int 4], [.int 5, .int 6, .int 7, .int 8]] ∧
    ([[PyVal.int 1, PyVal.int 2, PyVal.int 3, PyVal.int 4],
      [PyVal.int 5, PyVal.int 6, PyVal.int 7, PyVal.int 8]] : List (List PyVal)).length ≠ 1 :=
  ⟨rfl, rfl, rfl, by decide⟩

theorem okBind {ε α β : Type _} (a : α) (f : α → Except ε β) :
    ((Except.ok a : Except ε α) >>= f) = f a := rfl

theorem pySliceIndices_ok_step {start stop step : Option Int} {n : Nat} {s e t : Int}
    (h : pySliceIndices start stop step n = .ok (s, e, t)) : t ≠ 0 := by
  unfold pySliceIndices at h
  by_cases h0 : step = some 0
  · rw [if_pos h0] at h
    exact Except.noConfusion h
  · rw [if_neg h0] at h
    injection h with h'
    have ht : t = step.getD 1 := by
      have := congrArg (fun p : Int × Int × Int => p.2.2) h'
      simpa using this.symm
    cases step with
    | none => rw [ht]; exact one_ne_zero
    | some v =>
      rw [ht]
      simp only [Option.getD_some]
      intro hv
      exact h0 (by rw [hv])

/-- C7 amended: in `pypixelbuf.py`, slice assignment fails with
ValueError (the LengthMismatch of the spec) whenever the input length
differs from the number of indices selected by the resolved slice; the
`adafruit_pypixelbuf.py` variant performs no such check (excess input is
silently ignored, short input fails only with IndexError while
indexing the input mid-loop). -/
theorem ppb_setitem_slice_length_mismatch
    (st : PPB.State) (start stop step : Option Int) (s e t : Int)
    (vals : List PixelValue)
    (hres : pySliceIndices start stop step st.pixels = .ok (s, e, t))
    (hlen : vals.length ≠ pyRangeLen s e t) :
    PPB.setitem_slice st start stop step vals = .error .valueError := by
  have ht : t ≠ 0 := pySliceIndices_ok_step hres
  have hcond : (vals.length : Int) ≠ (if t ≠ 0 then pyCeilDiv (e - s) t else e - s) := by
    rw [if_pos ht]
    intro hEq
    apply hlen
    have hn : pyRangeLen s e t = vals.length := by
      unfold pyRangeLen
      rw [← hEq]
      rfl
    exact hn.symm
  unfold PPB.setitem_slice
  rw [hres]
  simp only [okBind]
  rw [if_pos hcond]

/-- C7 witness: a concrete mismatch (input of length 1 against a
resolved slice of length 2) raises ValueError in `pypixelbuf.py`. -/
theorem ppb_setitem_slice_length_mismatch_witness :
    pySliceIndices none none none c7bState.pixels = .ok (0, 2, 1) ∧
    ([PixelValue.t3 0 0 0] : List PixelValue).length ≠ pyRangeLen 0 2 1 ∧
    PPB.setitem_slice c7bState none none none [.t3 0 0 0] = .error .valueError :=
  ⟨rfl, by decide,
    ppb_setitem_slice_length_mismatch c7bState none none none 0 2 1
      [.t3 0 0 0] rfl (by decide)⟩

theorem bsetFloat_ok {l l' : Bytes} {i : Nat} {w : PyFloat}
    (h : bsetFloat l i w = .ok l') :
    w.den = 1 ∧ l' = l.set i w.num.toNat ∧ i < l.length ∧ 0 ≤ w.num ∧ w.num < 256 := by
  unfold bsetFloat at h
  by_cases h1 : w.den = 1
  · rw [if_pos h1] at h
    obtain ⟨h2, h3, h4, h5⟩ := bset_ok h
    exact ⟨h1, h2, h3, h4, h5⟩
  · rw [if_neg h1] at h
    exact Except.noConfusion h

/-- C2 amended: whenever the pre-brightness buffer exists, the colour
writes of `_set_item` store the unscaled channels in it and
`int(channel * brightness)` — i.e. `⌊channel * brightness⌋`, truncation
rather than `round` — in the physical buffer at the same offsets; the
white-mode fourth-channel write does the same for `W`.  Both parts are
stated about the write stages `write_colors` / `write_fourth` through
which every accepted `set(index, value)` form routes its channels. -/
theorem write_scaling_truncates :
    (∀ (st st' : APB.State) (off r g b o0 o1 o2 : Nat) (pre : Bytes),
      st.preBuffer = some pre →
      st.byteorder.getD 0 0 = o0 → st.byteorder.getD 1 0 = o1 →
      st.byteorder.getD 2 0 = o2 →
      o0 ≠ o1 → o0 ≠ o2 → o1 ≠ o2 →
      0 ≤ st.brightness.num →
      APB.write_colors st off r g b = .ok st' →
      ∃ pre', st'.preBuffer = some pre' ∧
        pre'.getD (off + o0) 0 = r ∧
        pre'.getD (off + o1) 0 = g ∧
        pre'.getD (off + o2) 0 = b ∧
        (APB.postAt st' (off + o0) : ℤ) = ⌊(r : ℚ) * st.brightness.toRat⌋ ∧
        (APB.postAt st' (off + o1) : ℤ) = ⌊(g : ℚ) * st.brightness.toRat⌋ ∧
        (APB.postAt st' (off + o2) : ℤ) = ⌊(b : ℚ) * st.brightness.toRat⌋) ∧
    (∀ (st st' : APB.State) (off bo3 : Nat) (w : PyFloat) (pre : Bytes),
      st.preBuffer = some pre →
      st.dotstarMode = false →
      st.byteorder.get? 3 = some bo3 →
      0 ≤ st.brightness.num →
      APB.write_fourth st off w true = .ok st' →
      ∃ pre', st'.preBuffer = some pre' ∧
        ((pre'.getD (off + bo3) 0 : ℕ) : ℚ) = w.toRat ∧
        (APB.postAt st' (off + bo3) : ℤ) = ⌊w.toRat * st.brightness.toRat⌋) := by
  constructor
  · intro st st' off r g b o0 o1 o2 pre hpre ho0 ho1 ho2 hne01 hne02 hne12 hbr h
    have hcast : ∀ v : Nat, ((v : Int)).toNat = v := fun v => rfl
    unfold APB.write_colors at h
    rw [hpre, ho0, ho1, ho2] at h
    obtain ⟨p1, hp1, h⟩ := bindOk h
    obtain ⟨p2, hp2, h⟩ := bindOk h
    obtain ⟨p3, hp3, h⟩ := bindOk h
    obtain ⟨s2, hs2, h⟩ := bindOk h
    obtain ⟨s3, hs3, h⟩ := bindOk h
    obtain ⟨hp1e, hp1b, -, -⟩ := bset_ok hp1
    obtain ⟨hp2e, hp2b, -, -⟩ := bset_ok hp2
    obtain ⟨hp3e, hp3b, -, -⟩ := bset_ok hp3
    subst hp1e
    subst hp2e
    subst hp3e
    obtain ⟨hs2e, hs2b, hs2n, -⟩ := postSet_ok hs2
    subst hs2e
    obtain ⟨hs3e, hs3b, hs3n, -⟩ := postSet_ok hs3
    subst hs3e
    obtain ⟨hse, hsb, hsn, -⟩ := postSet_ok h
    subst hse
    dsimp only at hp2b hp3b hs2b hs3b hsb ⊢
    rw [hcast] at hp2b hp3b
    simp only [List.length_set] at hp2b hp3b hs2b hs3b hsb
    have hval : ∀ v : Nat, 0 ≤ (PyFloat.natMul v st.brightness).num :=
      fun v => mul_nonneg (Int.natCast_nonneg v) hbr
    have hfl : ∀ v : Nat,
        PyFloat.trunc (PyFloat.natMul v st.brightness) = ⌊(v : ℚ) * st.brightness.toRat⌋ :=
      fun v => by
        rw [PyFloat.trunc_eq_floor _ (hval v), PyFloat.natMul_toRat]
    refine ⟨_, rfl, ?_, ?_, ?_, ?_, ?_, ?_⟩
    · rw [hcast, hcast, hcast]
      rw [getD_set_ne _ (fun hEq => hne02 (by omega)),
        getD_set_ne _ (fun hEq => hne01 (by omega)),
        getD_set_self _ hp1b]
    · rw [hcast, hcast, hcast]
      rw [getD_set_ne _ (fun hEq => hne12 (by omega)),
        getD_set_self _ (by rw [List.length_set]; exact hp2b)]
    · rw [hcast, hcast, hcast]
      rw [getD_set_self _ (by rw [List.length_set, List.length_set]; exact hp3b)]
    · unfold APB.postAt
      dsimp only
      rw [getD_set_ne _ (fun hEq => hne02 (by omega)),
        getD_set_ne _ (fun hEq => hne01 (by omega)),
        getD_set_self _ hs2b]
      rw [Int.toNat_of_nonneg hs2n, hfl r]
    · unfold APB.postAt
      dsimp only
      rw [getD_set_ne _ (fun hEq => hne12 (by omega)),
        getD_set_self _ (by rw [List.length_set]; exact hs3b)]
      rw [Int.toNat_of_nonneg hs3n, hfl g]
    · unfold APB.postAt
      dsimp only
      rw [getD_set_self _ (by rw [List.length_set, List.length_set]; exact hsb)]
      rw [Int.toNat_of_nonneg hsn, hfl b]
  · intro st st' off bo3 w pre hpre hds hbo3 hbr h
    unfold APB.write_fourth at h
    rw [hbo3, hds, hpre] at h
    simp only [if_true, Bool.false_eq_true, if_false] at h
    obtain ⟨p1, hp1, h⟩ := bindOk h
    obtain ⟨hw1, hp1e, hp1b, hp1n, -⟩ := bsetFloat_ok hp1
    subst hp1e
    obtain ⟨hse, hsb, hsn, -⟩ := postSet_ok h
    subst hse
    dsimp only at hsb ⊢
    have hnum : 0 ≤ (PyFloat.mul w st.brightness).num := mul_nonneg hp1n hbr
    refine ⟨_, rfl, ?_, ?_⟩
    · rw [getD_set_self _ hp1b]
      have hcst : ((w.num.toNat : ℕ) : ℚ) = ((w.num : ℤ) : ℚ) := by
        exact_mod_cast congrArg (Int.cast : ℤ → ℚ) (Int.toNat_of_nonneg hp1n)
      rw [hcst]
      unfold PyFloat.toRat
      rw [hw1]
      norm_num
    · unfold APB.postAt
      dsimp only
      rw [getD_set_self _ hsb]
      rw [Int.toNat_of_nonneg hsn, PyFloat.trunc_eq_floor _ hnum, PyFloat.mul_toRat]

/-- C2 witness: the truncation relation instantiated on a concrete
brightness-0.5 buffer and the write `(3, 4, 5)`. -/
theorem write_scaling_truncates_witness :
    APB.write_colors c2State 0 3 4 5 = .ok c2WitnessResult ∧
    (∃ pre', c2WitnessResult.preBuffer = some pre' ∧
      pre'.getD 0 0 = 3 ∧ pre'.getD 1 0 = 4 ∧ pre'.getD 2 0 = 5 ∧
      (APB.postAt c2WitnessResult 0 : ℤ) = ⌊(3 : ℚ) * c2State.brightness.toRat⌋ ∧
      (APB.postAt c2WitnessResult 1 : ℤ) = ⌊(4 : ℚ) * c2State.brightness.toRat⌋ ∧
      (APB.postAt c2WitnessResult 2 : ℤ) = ⌊(5 : ℚ) * c2State.brightness.toRat⌋) :=
  ⟨rfl, write_scaling_truncates.1 c2State c2WitnessResult 0 3 4 5 0 1 2 [0, 0, 0]
    rfl rfl rfl rfl (by decide) (by decide) (by decide) (by decide) rfl⟩

/-- C9: in DotStar mode, `set` with an explicit fourth value `w` writes
the start-frame byte `((32 - ⌊32 - w*31⌋) & 0b00011111) | 0b11100000`
(`int` coincides with the claim's `floor` for `0 ≤ w ≤ 1`). -/
theorem dotstar_start_frame_formula
    (st st' : PPB.State) (i : Int) (r g b : Nat) (w : PyFloat) (bo3 : Nat)
    (hds : st.dotstarMode = true)
    (hbpp : st.byteorder.bpp = 4)
    (hbo3 : st.byteorder.byteorder.get? 3 = some bo3)
    (hdpos : 0 < w.den) (hnn : 0 ≤ w.num) (hle : w.toRat ≤ 1)
    (h : PPB.set_item st i (.t4 r g b w) = .ok st') :
    st'.bytearray.getD
        (st.offsetVal + (pyWrapIndex i st.pixels).toNat * st.byteorder.bpp + bo3) 0 =
      ((32 - ⌊(32 : ℚ) - w.toRat * 31⌋).toNat &&& 31) ||| 224 := by
  rw [hbpp]
  unfold PPB.set_item at h
  by_cases hidx : pyWrapIndex i st.pixels ≥ (st.pixels : Int) ∨ pyWrapIndex i st.pixels < 0
  · rw [if_pos hidx] at h
    exact Except.noConfusion h
  · rw [if_neg hidx] at h
    have hd : PPB.decompose st (.t4 r g b w) = ⟨r, g, b, w, true⟩ := by
      unfold PPB.decompose
      simp [hbpp]
    rw [hd, hbpp, hbo3, hds] at h
    dsimp only at h
    obtain ⟨nr, hnr, h⟩ := bindOk h
    obtain ⟨a1, ha1, h⟩ := bindOk h
    obtain ⟨a2, ha2, h⟩ := bindOk h
    obtain ⟨a3, ha3, h⟩ := bindOk h
    obtain ⟨arr2, harr2, h⟩ := bindOk h
    obtain ⟨fr, hfr, h⟩ := bindOk h
    cases h
    obtain ⟨harr2e, harr2b, harr2n, -⟩ := bset_ok harr2
    subst harr2e
    dsimp only
    rw [getD_set_self _ harr2b]
    rw [lumByte_eq w hdpos hnn hle]
    rfl

/-- C9 witness: on a concrete DotStar buffer, `w = 1.0` yields
start-frame byte `0xFF` (and `w = 0.0` yields `0xE0`), matching the
formula. -/
theorem dotstar_start_frame_formula_witness :
    PPB.set_item c9State 0 (.t4 10 20 30 ⟨1, 1⟩) = .ok c9After ∧
    c9After.bytearray.getD
        (c9State.offsetVal + (pyWrapIndex 0 c9State.pixels).toNat * c9State.byteorder.bpp + 0) 0 =
      ((32 - ⌊(32 : ℚ) - (⟨1, 1⟩ : PyFloat).toRat * 31⌋).toNat &&& 31) ||| 224 ∧
    c9After.bytearray.getD 0 0 = 0xFF ∧
    PPB.set_item c9State 0 (.t4 10 20 30 ⟨0, 1⟩) = .ok c9After0 ∧
    c9After0.bytearray.getD 0 0 = 0xE0 :=
  ⟨rfl,
    dotstar_start_frame_formula c9State c9After 0 10 20 30 ⟨1, 1⟩ 0 rfl rfl rfl
      (by decide) (by decide) (by norm_num [PyFloat.toRat]) rfl,
    rfl, rfl, rfl⟩

theorem write_colors_fields {st st' : APB.State} {off r g b : Nat}
    (h : APB.write_colors st off r g b = .ok st') :
    st'.autoWrite = st.autoWrite ∧ st'.transmits = st.transmits := by
  unfold APB.write_colors at h
  cases hpre : st.preBuffer with
  | some pre =>
    rw [hpre] at h
    obtain ⟨p1, hp1, h⟩ := bindOk h
    obtain ⟨p2, hp2, h⟩ := bindOk h
    obtain ⟨p3, hp3, h⟩ := bindOk h
    obtain ⟨s2, hs2, h⟩ := bindOk h
    obtain ⟨s3, hs3, h⟩ := bindOk h
    obtain ⟨he2, -, -, -⟩ := postSet_ok hs2
    subst he2
    obtain ⟨he3, -, -, -⟩ := postSet_ok hs3
    subst he3
    obtain ⟨he, -, -, -⟩ := postSet_ok h
    subst he
    exact ⟨rfl, rfl⟩
  | none =>
    rw [hpre] at h
    obtain ⟨s1, hs1, h⟩ := bindOk h
    obtain ⟨s2, hs2, h⟩ := bindOk h
    obtain ⟨he1, -, -, -⟩ := postSet_ok hs1
    subst he1
    obtain ⟨he2, -, -, -⟩ := postSet_ok hs2
    subst he2
    obtain ⟨he, -, -, -⟩ := postSet_ok h
    subst he
    exact ⟨rfl, rfl⟩

theorem write_fourth_fields {st st' : APB.State} {off : Nat} {w : PyFloat} {hw : Bool}
    (h : APB.write_fourth st off w hw = .ok st') :
    st'.autoWrite = st.autoWrite ∧ st'.transmits = st.transmits := by
  unfold APB.write_fourth at h
  cases hw with
  | true =>
    cases hbo : st.byteorder.get? 3 with
    | none =>
      rw [hbo] at h
      exact Except.noConfusion h
    | some bo3 =>
      rw [hbo] at h
      cases hds : st.dotstarMode with
      | true =>
        rw [hds] at h
        obtain ⟨he, -, -, -⟩ := postSet_ok h
        subst he
        exact ⟨rfl, rfl⟩
      | false =>
        rw [hds] at h
        cases hpre : st.preBuffer with
        | some pre =>
          rw [hpre] at h
          obtain ⟨p1, hp1, h⟩ := bindOk h
          obtain ⟨he, -, -, -⟩ := postSet_ok h
          subst he
          exact ⟨rfl, rfl⟩
        | none =>
          rw [hpre] at h
          obtain ⟨he, -, -, -⟩ := postSet_ok h
          subst he
          exact ⟨rfl, rfl⟩
  | false =>
    cases hds : st.dotstarMode with
    | true =>
      rw [hds] at h
      cases hbo : st.byteorder.get? 3 with
      | none =>
        rw [hbo] at h
        exact Except.noConfusion h
      | some bo3 =>
        rw [hbo] at h
        obtain ⟨he, -, -, -⟩ := postSet_ok h
        subst he
        exact ⟨rfl, rfl⟩
    | false =>
      rw [hds] at h
      cases h
      exact ⟨rfl, rfl⟩

theorem set_item_fields {st st' : APB.State} {i : Int} {v : PixelValue}
    (h : APB.set_item st i v = .ok st') :
    st'.autoWrite = st.autoWrite ∧ st'.transmits = st.transmits := by
  unfold APB.set_item at h
  by_cases hidx : pyWrapIndex i st.pixels ≥ (st.pixels : Int) ∨ pyWrapIndex i st.pixels < 0
  · rw [if_pos hidx] at h
    exact Except.noConfusion h
  · rw [if_neg hidx] at h
    obtain ⟨s1, hs1, h⟩ := bindOk h
    obtain ⟨ha1, ht1⟩ := write_colors_fields hs1
    obtain ⟨ha2, ht2⟩ := write_fourth_fields h
    exact ⟨ha2.trans ha1, ht2.trans ht1⟩

theorem setitem_index_no_auto {st : APB.State} (hauto : st.autoWrite = false)
    (i : Int) (v : PixelValue) :
    APB.setitem_index st i v = APB.set_item st i v := by
  unfold APB.setitem_index
  cases hs : APB.set_item st i v with
  | error e => rfl
  | ok st' =>
    have ha : st'.autoWrite = false := by
      rw [(set_item_fields hs).1, hauto]
    rw [okBind, ha]
    rfl

theorem fill_loop_eq_set_all (c : PixelValue) :
    ∀ (l : List Nat) (st : APB.State), st.autoWrite = false →
      APB.fill_loop c st l = APB.set_all c st l := by
  intro l
  induction l with
  | nil => intro st _; rfl
  | cons i rest ih =>
    intro st hauto
    unfold APB.fill_loop APB.set_all
    rw [setitem_index_no_auto hauto]
    cases hs : APB.set_item st (i : Int) c with
    | error e => rfl
    | ok st' =>
      rw [okBind, okBind]
      exact ih st' (by rw [(set_item_fields hs).1, hauto])

theorem set_all_fields (c : PixelValue) :
    ∀ (l : List Nat) (st st' : APB.State), APB.set_all c st l = .ok st' →
      st'.autoWrite = st.autoWrite ∧ st'.transmits = st.transmits := by
  intro l
  induction l with
  | nil =>
    intro st st' h
    cases h
    exact ⟨rfl, rfl⟩
  | cons i rest ih =>
    intro st st' h
    unfold APB.set_all at h
    obtain ⟨s1, hs1, h⟩ := bindOk h
    obtain ⟨ha, ht⟩ := set_item_fields hs1
    obtain ⟨ha2, ht2⟩ := ih s1 st' h
    exact ⟨ha2.trans ha, ht2.trans ht⟩

/-- C10: `fill` equals the fold of bare `_set_item` over all pixel
indices (the per-iteration auto-write check never fires because the
flag is cleared first), followed by exactly one transmit when the saved
auto-write flag was set — never one per pixel — and the flag is
restored; consequently a successful `fill` grows the transmit log by
exactly one entry when auto-write was enabled and by none otherwise. -/
theorem fill_single_transmit (st : APB.State) (c : PixelValue) :
    APB.fill st c = (do
      let s ← APB.set_all c {st with autoWrite := false} (List.range st.pixels)
      let s2 := if st.autoWrite then APB.showPixels s else s
      Except.ok {s2 with autoWrite := st.autoWrite}) ∧
    ∀ st', APB.fill st c = .ok st' →
      st'.transmits.length = st.transmits.length + (if st.autoWrite then 1 else 0) ∧
      st'.autoWrite = st.autoWrite := by
  have heq : APB.fill st c = (do
      let s ← APB.set_all c {st with autoWrite := false} (List.range st.pixels)
      let s2 := if st.autoWrite then APB.showPixels s else s
      Except.ok {s2 with autoWrite := st.autoWrite}) := by
    unfold APB.fill
    dsimp only
    rw [fill_loop_eq_set_all c (List.range st.pixels) _ rfl]
  refine ⟨heq, ?_⟩
  intro st' h
  rw [heq] at h
  obtain ⟨s, hs, h⟩ := bindOk h
  obtain ⟨-, ht⟩ := set_all_fields c (List.range st.pixels) _ s hs
  cases h
  refine ⟨?_, rfl⟩
  cases hw : st.autoWrite with
  | true =>
    show (APB.showPixels s).transmits.length = st.transmits.length + 1
    unfold APB.showPixels
    dsimp only
    rw [List.length_append, ht]
    rfl
  | false =>
    show s.transmits.length = st.transmits.length + 0
    rw [ht]
    rfl

/-- C10 witness: on a 1-pixel buffer with auto-write enabled, `fill`
transmits exactly once and restores the flag. -/
theorem fill_single_transmit_witness :
    APB.fill c10State (.t3 7 8 9) = .ok c10After ∧
    (c10After.transmits.length = c10State.transmits.length +
        (if c10State.autoWrite then 1 else 0) ∧
      c10After.autoWrite = c10State.autoWrite) :=
  ⟨rfl, (fill_single_transmit c10State (.t3 7 8 9)).2 c10After rfl⟩

